import Mathlib

/-!
Verification of the cfn-tool stack-inspection CLI against its specification.

The definitions below are a shallow embedding of the Go sources:
  * `cmd/tail.go` — the event tailer (`runTail`): seed state, per-poll
    classification and emission, cursor update;
  * the helpers file (`listStacks`, `listEvents`, `buildStatusFilters`,
    `getValue`);
  * `cmd/list.go` — stack listing, resource search
    (`runList`/`runResourceSearch`), template resource matching
    (`searchStackTemplate`, `checkProperties`, `getNestedProperty`);
  * the drift command (`runDrift`, `printDriftResults`).

Go `time.Time` values are modelled as `Nat` instants (`After` = `<`,
`Equal` = `=`, the zero value = `0`); Go `*string` is `Option String`
(`getValue` maps `nil` to `""`); Go's `map[string]struct{}` set is a
duplicate-free `List String`; provider calls are modelled by passing the
provider's response data as an explicit argument and, where the order of
external calls matters, by an explicit effect trace.
-/

/-- One CloudFormation stack event (`types.StackEvent`), restricted to the
fields `runTail` reads.  `timestamp = none` models a nil `Timestamp`
pointer; `eventId = ""` models a nil `EventId` (Go `getValue`). -/
structure StackEvent where
  eventId : String
  timestamp : Option Nat
  logicalResourceId : String
  resourceType : String
  resourceStatus : String
  resourceStatusReason : String
deriving DecidableEq, Repr

/-- The tail cursor of `runTail`: the `since` high-water mark and the
`seenEventIDs` set. -/
structure TailState where
  since : Nat
  seen : List String
deriving DecidableEq, Repr

/-- Classification of one fetched event in the poll loop of `runTail`
(cmd/tail.go lines 97–114): an event is collected into `newEvents` iff its
timestamp is non-nil and strictly after `since`, or equal to `since` with a
non-empty `EventId` that is not in `seenEventIDs`. -/
def isNewEvent (since : Nat) (seen : List String) (e : StackEvent) : Bool :=
  match e.timestamp with
  | none => false
  | some t =>
    if since < t then true
    else if t = since then
      if e.eventId = "" then false else decide (e.eventId ∉ seen)
    else false

/-- Set insertion for the `seenEventIDs` map (`seenEventIDs[id] = struct{}{}`). -/
def insertSeen (s : List String) (id : String) : List String :=
  if id ∈ s then s else id :: s

/-- The per-printed-event cursor update of `runTail` (cmd/tail.go lines
117–127): record the event id when non-empty, and advance `since` when the
event's timestamp is strictly greater. -/
def recordEvent (st : TailState) (e : StackEvent) : TailState :=
  let seen' := if e.eventId = "" then st.seen else insertSeen st.seen e.eventId
  match e.timestamp with
  | none => { st with seen := seen' }
  | some t => { since := if st.since < t then t else st.since, seen := seen' }

/-- One iteration of the `runTail` poll loop on a successful fetch:
the provider returns `events` (newest first); the new ones are collected in
fetch order, printed in reverse (oldest first), and the cursor is updated
once per printed event.  Returns the printed events and the new cursor. -/
def pollStep (st : TailState) (events : List StackEvent) : List StackEvent × TailState :=
  let printed := (events.filter (isNewEvent st.since st.seen)).reverse
  (printed, printed.foldl recordEvent st)

/-- The seeding block of `runTail` (cmd/tail.go lines 40–55): `listEvents`
with limit 1 returns at most the single most recent event; its timestamp
seeds `since` (zero value when absent) and its id seeds `seenEventIDs`. -/
def seedState (events : List StackEvent) : TailState :=
  match events with
  | [] => ⟨0, []⟩
  | e :: _ =>
    match e.timestamp with
    | none => ⟨0, []⟩
    | some t => ⟨t, if e.eventId = "" then [] else [e.eventId]⟩

/-- Running the poll loop over a sequence of successful fetches, collecting
everything printed. -/
def runPolls (st : TailState) : List (List StackEvent) → List StackEvent × TailState
  | [] => ([], st)
  | fetch :: rest =>
    let step := pollStep st fetch
    let next := runPolls step.2 rest
    (step.1 ++ next.1, next.2)

/-- The timestamps occurring in a list of events, in order. -/
def eventTs (l : List StackEvent) : List Nat := l.filterMap (·.timestamp)

/-- A provider response is newest-first: its timestamps are non-increasing. -/
def NewestFirst (l : List StackEvent) : Prop :=
  (eventTs l).Pairwise (fun a b => b ≤ a)

/-- An event with an id, a timestamp, and blank display fields. -/
def mkEvent (id : String) (t : Nat) : StackEvent := ⟨id, some t, "", "", "", ""⟩

example : isNewEvent 2 ["e3"] (mkEvent "e4" 2) = true := by decide
example : isNewEvent 2 ["e3"] (mkEvent "e3" 2) = false := by decide
example :
    (pollStep (seedState [mkEvent "e1" 0]) [mkEvent "e3" 2, mkEvent "e2" 1, mkEvent "e1" 0]).2
      = ⟨2, ["e3", "e2", "e1"]⟩ := by decide

/-- State reached after seeding the tailer with `e1@0` and then polling a
log that already contains `e1@0`, `e2@1`, `e3@2`: all three events have
been observed (`since = 2`, ids recorded). -/
def tailScenarioState : TailState :=
  (pollStep (seedState [mkEvent "e1" 0]) [mkEvent "e3" 2, mkEvent "e2" 1, mkEvent "e1" 0]).2

/-- C1: in the `runTail` poll loop an event carrying an identifier is
classified as new iff its timestamp is strictly after the high-water mark,
or equal to it with an identifier not yet in `seenEventIDs`; moreover in
the two-poll scenario where poll 1 returns `[e3@2, e2@1, e1@0]` (all
already observed) and poll 2 returns `[e4@2, e3@2, e2@1, e1@0]`, poll 1
emits nothing and poll 2 emits exactly the single event `e4`. -/
theorem tail_classifies_new_iff :
    (∀ (st : TailState) (e : StackEvent) (t : Nat),
      e.timestamp = some t → e.eventId ≠ "" →
      (isNewEvent st.since st.seen e = true ↔
        (st.since < t ∨ (t = st.since ∧ e.eventId ∉ st.seen))))
    ∧ (pollStep tailScenarioState [mkEvent "e3" 2, mkEvent "e2" 1, mkEvent "e1" 0]).1 = []
    ∧ (pollStep (pollStep tailScenarioState [mkEvent "e3" 2, mkEvent "e2" 1, mkEvent "e1" 0]).2
        [mkEvent "e4" 2, mkEvent "e3" 2, mkEvent "e2" 1, mkEvent "e1" 0]).1
        = [mkEvent "e4" 2] := by
  refine ⟨?_, by decide, by decide⟩
  intro st e t hts hid
  simp only [isNewEvent, hts]
  split_ifs with h1 h2
  · simp [h1]
  · simp [h1, h2]
  · simp [h1, h2]

/-- Witness for `tail_classifies_new_iff`: instantiating the classification
rule at the concrete cursor `⟨2, ["e3"]⟩` and the event `e4@2`. -/
theorem tail_classifies_new_iff_witness :
    isNewEvent (TailState.mk 2 ["e3"]).since (TailState.mk 2 ["e3"]).seen (mkEvent "e4" 2) = true :=
  (tail_classifies_new_iff.1 ⟨2, ["e3"]⟩ (mkEvent "e4" 2) 2 rfl (by decide)).mpr
    (Or.inr ⟨rfl, by decide⟩)

/-- The retention invariant asserted by the spec for the tail cursor: every
identifier kept in `seenEventIDs` belongs to a fetched event whose
timestamp equals the current high-water mark. -/
def SeenRetentionInvariant (fetched : List StackEvent) (st : TailState) : Prop :=
  ∀ id ∈ st.seen, ∃ e ∈ fetched, e.eventId = id ∧ e.timestamp = some st.since

/-- The fetched log of the C2 counterexample run: `b@1` newly appended
above the already-seen `a@0`. -/
def seenCexPoll : List StackEvent := [mkEvent "b" 1, mkEvent "a" 0]

/-- Cursor after seeding with `a@0` and polling `[b@1, a@0]`. -/
def seenCexState : TailState := (pollStep (seedState [mkEvent "a" 0]) seenCexPoll).2

/-- C2 counterexample: after one poll that advances the high-water mark to
1, the id `"a"` (timestamp 0) is still retained in `seenEventIDs`, so the
pruning invariant fails and the set is larger than the number of fetched
events at the latest timestamp. -/
theorem seen_pruning_counterexample :
    seenCexState.since = 1 ∧ "a" ∈ seenCexState.seen ∧
    ¬ SeenRetentionInvariant seenCexPoll seenCexState ∧
    seenCexState.seen.length = 2 ∧
    (seenCexPoll.filter (fun e => e.timestamp = some seenCexState.since)).length = 1 := by
  unfold SeenRetentionInvariant
  decide

/-- Membership in the `seenEventIDs` component after one cursor update. -/
theorem mem_recordEvent_seen (st : TailState) (e : StackEvent) (id : String) :
    id ∈ (recordEvent st e).seen ↔ id ∈ st.seen ∨ (id ≠ "" ∧ e.eventId = id) := by
  have hseen : (recordEvent st e).seen
      = (if e.eventId = "" then st.seen else insertSeen st.seen e.eventId) := by
    unfold recordEvent
    cases e.timestamp <;> rfl
  rw [hseen]
  split_ifs with hblank
  · constructor
    · exact fun h => Or.inl h
    · rintro (h | ⟨hne, hid⟩)
      · exact h
      · exact absurd (hid ▸ hblank) hne
  · unfold insertSeen
    split_ifs with hmem
    · constructor
      · exact fun h => Or.inl h
      · rintro (h | ⟨hne, hid⟩)
        · exact h
        · exact hid ▸ hmem
    · simp only [List.mem_cons]
      constructor
      · rintro (h | h)
        · exact Or.inr ⟨h ▸ hblank, h.symm⟩
        · exact Or.inl h
      · rintro (h | ⟨hne, hid⟩)
        · exact Or.inr h
        · exact Or.inl hid.symm

/-- Membership in `seenEventIDs` after folding the cursor update over a
list of printed events. -/
theorem mem_foldl_recordEvent_seen (l : List StackEvent) (st : TailState) (id : String) :
    id ∈ (l.foldl recordEvent st).seen ↔
      id ∈ st.seen ∨ (id ≠ "" ∧ ∃ e ∈ l, e.eventId = id) := by
  induction l generalizing st with
  | nil => simp
  | cons e l ih =>
    rw [List.foldl_cons, ih, mem_recordEvent_seen]
    constructor
    · rintro (((h | ⟨hne, hid⟩) | ⟨hne, f, hf, hfid⟩))
      · exact Or.inl h
      · exact Or.inr ⟨hne, e, List.mem_cons_self e l, hid⟩
      · exact Or.inr ⟨hne, f, List.mem_cons_of_mem e hf, hfid⟩
    · rintro (h | ⟨hne, f, hf, hfid⟩)
      · exact Or.inl (Or.inl h)
      · rcases List.mem_cons.mp hf with rfl | hf
        · exact Or.inl (Or.inr ⟨hne, hfid⟩)
        · exact Or.inr ⟨hne, f, hf, hfid⟩

/-- C2 amended: `seenEventIDs` is never pruned — after a poll it contains
exactly the previously retained identifiers plus the (non-empty)
identifiers of the events the poll printed, regardless of timestamps. -/
theorem seen_accumulates_unpruned (st : TailState) (events : List StackEvent) (id : String) :
    id ∈ (pollStep st events).2.seen ↔
      id ∈ st.seen ∨ (id ≠ "" ∧ ∃ e ∈ (pollStep st events).1, e.eventId = id) := by
  unfold pollStep
  exact mem_foldl_recordEvent_seen _ st id

/-- A collected event has a timestamp at or after the high-water mark. -/
theorem isNewEvent_since_le (s : Nat) (seen : List String) (e : StackEvent)
    (h : isNewEvent s seen e = true) : ∃ t, e.timestamp = some t ∧ s ≤ t := by
  unfold isNewEvent at h
  cases hts : e.timestamp with
  | none => rw [hts] at h; cases h
  | some t =>
    rw [hts] at h
    refine ⟨t, rfl, ?_⟩
    by_cases h1 : s < t
    · exact Nat.le_of_lt h1
    · by_cases h2 : t = s
      · omega
      · simp [h1, h2] at h

/-- One cursor update never moves the high-water mark backwards. -/
theorem recordEvent_since_le (st : TailState) (e : StackEvent) :
    st.since ≤ (recordEvent st e).since := by
  unfold recordEvent
  cases e.timestamp with
  | none => exact Nat.le_refl _
  | some t =>
    simp only
    split_ifs with h
    · exact Nat.le_of_lt h
    · exact Nat.le_refl _

/-- Folding cursor updates never moves the high-water mark backwards. -/
theorem foldl_recordEvent_since_le (l : List StackEvent) (st : TailState) :
    st.since ≤ (l.foldl recordEvent st).since := by
  induction l generalizing st with
  | nil => exact Nat.le_refl _
  | cons e l ih =>
    exact Nat.le_trans (recordEvent_since_le st e) (ih (recordEvent st e))

/-- After folding the cursor update over a list, the high-water mark is at
or above the timestamp of every event of the list. -/
theorem ts_le_foldl_recordEvent_since (l : List StackEvent) (st : TailState)
    (e : StackEvent) (t : Nat) (he : e ∈ l) (hts : e.timestamp = some t) :
    t ≤ (l.foldl recordEvent st).since := by
  induction l generalizing st with
  | nil => cases he
  | cons f l ih =>
    simp only [List.foldl_cons]
    rcases List.mem_cons.mp he with rfl | he
    · refine Nat.le_trans ?_ (foldl_recordEvent_since_le l (recordEvent st e))
      simp only [recordEvent, hts]
      split_ifs with h
      · exact Nat.le_refl _
      · omega
    · exact ih (recordEvent st f) he

/-- The timestamps of two concatenated event lists. -/
theorem eventTs_append (a b : List StackEvent) :
    eventTs (a ++ b) = eventTs a ++ eventTs b :=
  List.filterMap_append a b _

/-- Within one poll, the printed events' timestamps are non-decreasing
whenever the fetch was newest-first. -/
theorem pollStep_printed_sorted (st : TailState) (events : List StackEvent)
    (h : NewestFirst events) :
    (eventTs (pollStep st events).1).Pairwise (· ≤ ·) := by
  have hsub :
      List.Sublist (eventTs (events.filter (isNewEvent st.since st.seen))) (eventTs events) :=
    (List.filter_sublist events).filterMap _
  have hsorted := h.sublist hsub
  simp only [pollStep, eventTs, List.filterMap_reverse, List.pairwise_reverse]
  exact hsorted

/-- Every timestamp printed by a poll is at or after the poll's starting
high-water mark. -/
theorem since_le_of_mem_printed (st : TailState) (events : List StackEvent) (t : Nat)
    (h : t ∈ eventTs (pollStep st events).1) : st.since ≤ t := by
  rcases List.mem_filterMap.mp h with ⟨e, he, hts⟩
  have hmem : e ∈ events.filter (isNewEvent st.since st.seen) := by
    simpa [pollStep] using he
  rcases isNewEvent_since_le _ _ _ (List.mem_filter.mp hmem).2 with ⟨t', hts', hle⟩
  rw [hts] at hts'
  cases hts'
  exact hle

/-- Every timestamp printed by a poll is at or below the poll's final
high-water mark. -/
theorem printed_le_pollStep_since (st : TailState) (events : List StackEvent) (t : Nat)
    (h : t ∈ eventTs (pollStep st events).1) :
    t ≤ (pollStep st events).2.since := by
  rcases List.mem_filterMap.mp h with ⟨e, he, hts⟩
  have he' : e ∈ (events.filter (isNewEvent st.since st.seen)).reverse := by
    simpa [pollStep] using he
  simpa [pollStep] using
    ts_le_foldl_recordEvent_since _ st e t he' hts

/-- One poll never moves the high-water mark backwards. -/
theorem pollStep_since_mono (st : TailState) (events : List StackEvent) :
    st.since ≤ (pollStep st events).2.since := by
  simpa [pollStep] using
    foldl_recordEvent_since_le ((events.filter (isNewEvent st.since st.seen)).reverse) st

/-- Ordering invariant of the tail loop: over any run of newest-first
polls, the full printed output is non-decreasing in timestamp and stays at
or after the starting high-water mark. -/
theorem runPolls_sorted_aux (polls : List (List StackEvent)) :
    ∀ st : TailState, (∀ f ∈ polls, NewestFirst f) →
      (eventTs (runPolls st polls).1).Pairwise (· ≤ ·) ∧
      (∀ t ∈ eventTs (runPolls st polls).1, st.since ≤ t) := by
  induction polls with
  | nil =>
    intro st _
    simp [runPolls, eventTs]
  | cons fetch rest ih =>
    intro st h
    have hf : NewestFirst fetch := h fetch (List.mem_cons_self _ _)
    have hrest : ∀ f ∈ rest, NewestFirst f := fun f hfm => h f (List.mem_cons_of_mem _ hfm)
    obtain ⟨ihSorted, ihGe⟩ := ih (pollStep st fetch).2 hrest
    have hrun : (runPolls st (fetch :: rest)).1
        = (pollStep st fetch).1 ++ (runPolls (pollStep st fetch).2 rest).1 := rfl
    rw [hrun, eventTs_append]
    constructor
    · rw [List.pairwise_append]
      refine ⟨pollStep_printed_sorted st fetch hf, ihSorted, ?_⟩
      intro a ha b hb
      exact Nat.le_trans (printed_le_pollStep_since _ _ _ ha) (ihGe b hb)
    · intro t ht
      rcases List.mem_append.mp ht with hmem | hmem
      · exact since_le_of_mem_printed _ _ _ hmem
      · exact Nat.le_trans (pollStep_since_mono st fetch) (ihGe t hmem)

/-- C3: for every sequence of polls whose fetched lists are newest-first
(non-increasing timestamps), the timestamps of everything printed — within
each poll and across successive polls — form a non-decreasing sequence. -/
theorem tail_printed_nondecreasing (st : TailState) (polls : List (List StackEvent))
    (h : ∀ f ∈ polls, NewestFirst f) :
    (eventTs (runPolls st polls).1).Pairwise (· ≤ ·) :=
  (runPolls_sorted_aux polls st h).1

/-- Witness for `tail_printed_nondecreasing` at a concrete two-poll run. -/
theorem tail_printed_nondecreasing_witness :
    (eventTs (runPolls ⟨0, []⟩
      [[mkEvent "e3" 2, mkEvent "e2" 1], [mkEvent "e4" 2, mkEvent "e1" 0]]).1).Pairwise
        (· ≤ ·) :=
  tail_printed_nondecreasing ⟨0, []⟩
    [[mkEvent "e3" 2, mkEvent "e2" 1], [mkEvent "e4" 2, mkEvent "e1" 0]]
    (by unfold NewestFirst; decide)

/-- The CloudFormation stack lifecycle statuses (`types.StackStatus`). -/
inductive StackStatus where
  | createInProgress
  | createFailed
  | createComplete
  | rollbackInProgress
  | rollbackFailed
  | rollbackComplete
  | deleteInProgress
  | deleteFailed
  | deleteComplete
  | updateInProgress
  | updateCompleteCleanupInProgress
  | updateComplete
  | updateFailed
  | updateRollbackInProgress
  | updateRollbackFailed
  | updateRollbackCompleteCleanupInProgress
  | updateRollbackComplete
  | reviewInProgress
  | importInProgress
  | importComplete
  | importRollbackInProgress
  | importRollbackFailed
  | importRollbackComplete
deriving DecidableEq, Repr, Fintype

open StackStatus in
/-- `buildStatusFilters` from the helpers file: maps the four boolean flags
to the status filter list sent to the provider.  `[]` stands for Go `nil`
("no filter", provider default). -/
def buildStatusFilters (all complete deleted inProgress : Bool) : List StackStatus :=
  if all then []
  else if !complete && !deleted && !inProgress then
    [createComplete, updateComplete, rollbackComplete, updateRollbackComplete,
     importComplete, importRollbackComplete,
     createInProgress, deleteInProgress, rollbackInProgress, updateInProgress,
     updateCompleteCleanupInProgress, updateRollbackInProgress,
     updateRollbackCompleteCleanupInProgress, reviewInProgress,
     importInProgress, importRollbackInProgress]
  else
    (if complete then
      [createComplete, deleteComplete, rollbackComplete, updateComplete,
       updateRollbackComplete, importComplete, importRollbackComplete]
     else []) ++
    (if deleted then [deleteInProgress, deleteFailed, deleteComplete] else []) ++
    (if inProgress then
      [createInProgress, deleteInProgress, rollbackInProgress, updateInProgress,
       updateCompleteCleanupInProgress, updateRollbackInProgress,
       updateRollbackCompleteCleanupInProgress, reviewInProgress,
       importInProgress, importRollbackInProgress]
     else [])

open StackStatus in
/-- The six `*_COMPLETE` success statuses named by the claim as the whole
default set. -/
def specSuccessCompleteSet : List StackStatus :=
  [createComplete, updateComplete, rollbackComplete, updateRollbackComplete,
   importComplete, importRollbackComplete]

open StackStatus in
/-- The ten `*_IN_PROGRESS`-family statuses (the `inProgress` branch of
`buildStatusFilters`). -/
def inProgressFamilyStatuses : List StackStatus :=
  [createInProgress, deleteInProgress, rollbackInProgress, updateInProgress,
   updateCompleteCleanupInProgress, updateRollbackInProgress,
   updateRollbackCompleteCleanupInProgress, reviewInProgress,
   importInProgress, importRollbackInProgress]

/-- C4 counterexample: with all four flags false, `buildStatusFilters` also
returns `CREATE_IN_PROGRESS`, which is not one of the six `*_COMPLETE`
success statuses, so the returned set is not the claimed set. -/
theorem buildStatusFilters_default_counterexample :
    StackStatus.createInProgress ∈ buildStatusFilters false false false false ∧
    StackStatus.createInProgress ∉ specSuccessCompleteSet ∧
    ∃ s ∈ buildStatusFilters false false false false, s ∉ specSuccessCompleteSet := by
  decide

/-- C4 amended: with all four flags false, the returned filter set is
exactly the six `*_COMPLETE` success statuses together with the ten
in-progress statuses, and nothing else. -/
theorem buildStatusFilters_default_characterization :
    ∀ s : StackStatus,
      s ∈ buildStatusFilters false false false false ↔
        (s ∈ specSuccessCompleteSet ∨ s ∈ inProgressFamilyStatuses) := by
  decide

/-- Go `strings.Contains`: substring (infix) test on the byte sequence,
modelled on the character list. -/
def strContains (s sub : String) : Bool := decide (sub.data <:+: s.data)

/-- `getValue` from the helpers file: dereference a `*string`, with `""`
for nil. -/
def getValue (s : Option String) : String := s.getD ""

/-- A stack summary (`types.StackSummary`) restricted to the fields the
list path reads. -/
structure StackSummary where
  stackName : Option String
  stackStatus : StackStatus
  creationTime : Option Nat
  templateDescription : Option String
deriving DecidableEq, Repr

/-- The per-summary keep/skip decision of `listStacks` in the helpers file
(name substring on the lower-cased name, then required and excluded
substrings on the lower-cased template description; empty filter strings
are inactive). -/
def keepStack (nameFilter descContains descNotContains : String)
    (stack : StackSummary) : Bool :=
  if nameFilter ≠ "" && !(match stack.stackName with
      | none => false
      | some n => strContains n.toLower nameFilter.toLower) then false
  else
    let desc := (getValue stack.templateDescription).toLower
    if descContains ≠ "" && !(strContains desc descContains.toLower) then false
    else if descNotContains ≠ "" && strContains desc descNotContains.toLower then false
    else true

/-- `listStacks` filtering over a full (pagination-flattened) provider
response, preserving provider order. -/
def filterStacks (summaries : List StackSummary) (nameFilter descContains descNotContains : String) :
    List StackSummary :=
  summaries.filter (keepStack nameFilter descContains descNotContains)

/-- C9: the stack-query filter is idempotent — filtering an
already-filtered result with the same predicates returns it unchanged
(order included). -/
theorem stackQuery_filter_idempotent (summaries : List StackSummary)
    (nameFilter descContains descNotContains : String) :
    filterStacks (filterStacks summaries nameFilter descContains descNotContains)
        nameFilter descContains descNotContains
      = filterStacks summaries nameFilter descContains descNotContains := by
  simp [filterStacks, List.filter_filter]

/-- A node of the parsed template tree (Go `interface{}` after
`json.Unmarshal`/`yaml.Unmarshal`): scalar string, number (JSON numbers
abstracted to `Int`), boolean, null, string-keyed mapping, or sequence. -/
inductive TValue where
  | vStr (s : String)
  | vNum (n : Int)
  | vBool (b : Bool)
  | vNull
  | vMap (entries : List (String × TValue))
  | vArr (elems : List TValue)

/-- Whether a tree node is a mapping (Go type assertion
`.(map[string]interface{})` succeeding). -/
def TValue.isMapping : TValue → Bool
  | .vMap _ => true
  | _ => false

/-- Go `strings.Split` with a one-character separator, on the character
list: accumulate the current segment, cut at each separator. -/
def splitCharsAux (sep : Char) : List Char → List Char → List (List Char)
  | [], acc => [acc.reverse]
  | c :: cs, acc =>
    if c = sep then acc.reverse :: splitCharsAux sep cs []
    else splitCharsAux sep cs (c :: acc)

/-- `strings.Split(path, ".")` from `getNestedProperty`. -/
def splitPath (path : String) : List String :=
  (splitCharsAux '.' path.data []).map String.mk

/-- Exact key lookup in a template mapping (Go map indexing; the Go map has
unique keys, modelled by taking the first entry). -/
def lookupExact (m : List (String × TValue)) (k : String) : Option TValue :=
  (m.find? (fun kv => kv.1 == k)).map (·.2)

/-- Case-insensitive key scan in a template mapping (`strings.EqualFold`
approximated by lower-casing; Go iterates the map in unspecified order and
takes the first fold-equal key — modelled by entry order). -/
def lookupFold (m : List (String × TValue)) (k : String) : Option TValue :=
  (m.find? (fun kv => kv.1.toLower == k.toLower)).map (·.2)

/-- The descent loop of `getNestedProperty` (cmd/list.go lines 307–341):
at each path segment the current node must be a mapping containing the
segment's key; otherwise the whole lookup is absent. -/
def getNestedAux (ignoreCase : Bool) : TValue → List String → Option TValue
  | cur, [] => some cur
  | cur, part :: rest =>
    match cur with
    | .vMap m =>
      match (if ignoreCase then lookupFold m part else lookupExact m part) with
      | none => none
      | some v => getNestedAux ignoreCase v rest
    | _ => none

/-- `getNestedProperty` from cmd/list.go: split the dotted path and descend
through the `Properties` tree. -/
def getNestedProperty (properties : List (String × TValue)) (path : String)
    (ignoreCase : Bool) : Option TValue :=
  getNestedAux ignoreCase (.vMap properties) (splitPath path)

/-- Go `fmt.Sprintf("%v", value)` on a resolved property value, for the
scalar shapes; the rendering of composite values is abstracted to a marker
(no claim compares a composite's rendering). -/
def displayString : TValue → String
  | .vStr s => s
  | .vNum n => toString n
  | .vBool b => if b then "true" else "false"
  | .vNull => "<nil>"
  | .vMap _ => "map[…]"
  | .vArr _ => "[…]"

/-- Modelled from the spec: `equalsWithCase` — called from cmd/list.go but
its definition is not under src/ — equality of the two strings, compared
case-insensitively when the flag is set (§4.3 "respecting case rule"). -/
def equalsWithCase (a b : String) (ignoreCase : Bool) : Bool :=
  if ignoreCase then a.toLower == b.toLower else a == b

/-- Modelled from the spec: `containsWithCase` — called from cmd/list.go
but its definition is not under src/ — substring containment, compared
case-insensitively when the flag is set (§4.3 step 3a). -/
def containsWithCase (s sub : String) (ignoreCase : Bool) : Bool :=
  if ignoreCase then strContains s.toLower sub.toLower else strContains s sub

/-- `checkProperties` from cmd/list.go: every property filter must resolve
through the nested lookup and its value must equal (as its string
rendering) the expected value; an absent path — or a resolution to a Go
nil interface, which a JSON `null` also produces — fails the filter. -/
def checkProperties (properties : List (String × TValue))
    (filters : List (String × String)) (ignoreCase : Bool) : Bool :=
  filters.all fun kv =>
    match getNestedProperty properties kv.1 ignoreCase with
    | none => false
    | some .vNull => false
    | some v => equalsWithCase (displayString v) kv.2 ignoreCase

/-- The per-resource test of `searchStackTemplate` (cmd/list.go lines
246–280): logical-id substring first, then the resource definition must be
a mapping, then the declared `Type`, then the property filters against the
`Properties` mapping. -/
def matchesResource (resType resName : String) (filters : List (String × String))
    (ignoreCase : Bool) (logicalID : String) (resourceData : TValue) : Bool :=
  if resName ≠ "" && !(containsWithCase logicalID resName ignoreCase) then false
  else
    match resourceData with
    | .vMap resourceMap =>
      (if resType ≠ "" then
        match lookupExact resourceMap "Type" with
        | some (.vStr t) => equalsWithCase t resType ignoreCase
        | _ => false
       else true)
      &&
      (if filters.isEmpty then true
       else
        match lookupExact resourceMap "Properties" with
        | some (.vMap props) => checkProperties props filters ignoreCase
        | _ => false)
    | _ => false

/-- `searchStackTemplate` below parsing: whether some resource of the
template's `Resources` mapping satisfies all active filters (Go returns at
the first match of an unspecified map iteration order; existence is
order-independent). -/
def templateHasMatch (resources : List (String × TValue)) (resType resName : String)
    (filters : List (String × String)) (ignoreCase : Bool) : Bool :=
  resources.any fun kv => matchesResource resType resName filters ignoreCase kv.1 kv.2

example :
    getNestedProperty [("Versioning", .vMap [("Status", .vStr "Enabled")])]
      "Versioning.Status" false = some (.vStr "Enabled") := rfl
example :
    getNestedProperty [("Versioning", .vStr "Enabled")] "Versioning.Status" false = none := rfl

/-- C7: the dotted path `Versioning.Status` resolves to `"Enabled"` under
`{Versioning: {Status: "Enabled"}}`, but is absent under
`{Versioning: "Enabled"}` (non-mapping intermediate), which makes the
property filter — and hence the resource match — fail closed. -/
theorem nested_lookup_fail_closed :
    getNestedProperty [("Versioning", .vMap [("Status", .vStr "Enabled")])]
        "Versioning.Status" false = some (.vStr "Enabled")
    ∧ getNestedProperty [("Versioning", .vStr "Enabled")] "Versioning.Status" false = none
    ∧ checkProperties [("Versioning", .vMap [("Status", .vStr "Enabled")])]
        [("Versioning.Status", "Enabled")] false = true
    ∧ checkProperties [("Versioning", .vStr "Enabled")]
        [("Versioning.Status", "Enabled")] false = false
    ∧ templateHasMatch
        [("Bucket", .vMap [("Type", .vStr "AWS::S3::Bucket"),
                           ("Properties", .vMap [("Versioning", .vStr "Enabled")])])]
        "" "" [("Versioning.Status", "Enabled")] false = false
    ∧ templateHasMatch
        [("Bucket", .vMap [("Type", .vStr "AWS::S3::Bucket"),
                           ("Properties",
                            .vMap [("Versioning", .vMap [("Status", .vStr "Enabled")])])])]
        "" "" [("Versioning.Status", "Enabled")] false = true :=
  ⟨rfl, rfl, rfl, rfl, rfl, rfl⟩

/-- C10: a resource whose definition value is not a mapping never satisfies
`searchStackTemplate`'s per-resource test — whatever the filters, including
a logical-id filter its id contains — and removing it from the `Resources`
mapping leaves the search result unchanged (it is silently skipped). -/
theorem nonMapping_resource_skipped (l₁ l₂ : List (String × TValue)) (id : String)
    (v : TValue) (resType resName : String) (filters : List (String × String))
    (ignoreCase : Bool) (h : v.isMapping = false) :
    matchesResource resType resName filters ignoreCase id v = false ∧
    templateHasMatch (l₁ ++ (id, v) :: l₂) resType resName filters ignoreCase
      = templateHasMatch (l₁ ++ l₂) resType resName filters ignoreCase := by
  have hm : matchesResource resType resName filters ignoreCase id v = false := by
    cases v
    case vMap m => exact absurd h (by simp [TValue.isMapping])
    all_goals unfold matchesResource
    all_goals split_ifs <;> rfl
  refine ⟨hm, ?_⟩
  simp [templateHasMatch, List.any_append, hm]

/-- Witness for `nonMapping_resource_skipped`: the resource `MyBucket`
defined by the bare string `"AWS::S3::Bucket"` is skipped even though its
logical id contains the active name filter `"Bucket"`. -/
theorem nonMapping_resource_skipped_witness :
    containsWithCase "MyBucket" "Bucket" false = true ∧
    templateHasMatch [("MyBucket", .vStr "AWS::S3::Bucket")] "" "Bucket" [] false = false :=
  ⟨rfl,
    ((nonMapping_resource_skipped [] [] "MyBucket" (.vStr "AWS::S3::Bucket")
      "" "Bucket" [] false rfl).2).trans rfl⟩

/-- The externally observable steps of the list command that matter for
ordering: the stack-listing request, per-stack template requests, and a
fatal rejection (`fatalf`, which exits). -/
inductive ListEffect where
  | listStacksCall (statusFilters : List StackStatus)
  | getTemplateCall (stackName : String)
  | fatal (msg : String)
deriving DecidableEq, Repr

/-- Whether an effect is a network request. -/
def ListEffect.isNetwork : ListEffect → Bool
  | .listStacksCall _ => true
  | .getTemplateCall _ => true
  | .fatal _ => false

/-- Whether an effect is a fatal rejection. -/
def ListEffect.isFatal : ListEffect → Bool
  | .fatal _ => true
  | _ => false

/-- Go `strings.Contains(prop, "=")` in the property-filter parse loop. -/
def hasEqSign (p : String) : Bool := p.data.contains '='

/-- The trace of `runResourceSearch` (cmd/list.go lines 122–214) up to and
including the template fetches: the property filters are parsed first
(`fatalf` at the first entry without `=`, as `strings.SplitN(p, "=", 2)`
yields one part exactly when `p` has no `=`), then the empty-candidate
check, then one `GetTemplate` request per named candidate stack. -/
def runResourceSearchTrace (candidates : List StackSummary) (props : List String) :
    List ListEffect :=
  match props.find? (fun p => !(hasEqSign p)) with
  | some bad => [.fatal ("invalid property format " ++ bad)]
  | none =>
    if candidates.isEmpty then [.fatal "No stacks to search"]
    else candidates.filterMap (fun s => s.stackName.map ListEffect.getTemplateCall)

/-- The trace of `runList` (cmd/list.go lines 76–120): build the status
filters (overridden to "no filter" for a resource search without status
flags), issue the stack-listing request, and — when resource filters are
present — run the resource search over the client-side-filtered summaries. -/
def runListTrace (allF completeF deletedF inProgressF : Bool)
    (nameFilter descContains descNotContains resType resName : String)
    (props : List String) (provider : List StackSummary) : List ListEffect :=
  let isResourceSearch := resType ≠ "" || resName ≠ "" || !props.isEmpty
  let statusFilters :=
    if isResourceSearch && !allF && !completeF && !deletedF && !inProgressF then []
    else buildStatusFilters allF completeF deletedF inProgressF
  ListEffect.listStacksCall statusFilters ::
    (if isResourceSearch then
      runResourceSearchTrace
        (filterStacks provider nameFilter descContains descNotContains) props
     else [])

/-- Whether a trace performs no network request before its first fatal
rejection (and does reject) — the fail-fast property the claim asserts. -/
def rejectedBeforeAnyNetwork (tr : List ListEffect) : Bool :=
  (tr.takeWhile (fun e => ! e.isFatal)).all (fun e => ! e.isNetwork)
    && tr.any ListEffect.isFatal

/-- C8 counterexample: invoking the list command with the single property
filter `"BucketName"` (no `=`) issues the stack-listing network request
first and only then rejects the malformed filter, so the rejection does
not precede all network calls. -/
theorem malformed_filter_counterexample :
    runListTrace false false false false "" "" "" "" "" ["BucketName"] []
      = [.listStacksCall [], .fatal "invalid property format BucketName"] ∧
    rejectedBeforeAnyNetwork
      (runListTrace false false false false "" "" "" "" "" ["BucketName"] []) = false := by
  constructor
  · rfl
  · rfl

/-- C8 amended: a resource-search invocation with a property filter lacking
`=` is rejected with the malformed-filter failure, but only after the
stack-listing request: its trace is exactly one `ListStacks` call followed
by the fatal rejection (in particular no template is fetched and no other
work happens). -/
theorem malformed_filter_rejected_after_listing
    (allF completeF deletedF inProgressF : Bool)
    (nameFilter descContains descNotContains resType resName : String)
    (props : List String) (provider : List StackSummary) (bad : String)
    (h : props.find? (fun p => !(hasEqSign p)) = some bad) :
    ∃ sf, runListTrace allF completeF deletedF inProgressF nameFilter descContains
        descNotContains resType resName props provider
      = [.listStacksCall sf, .fatal ("invalid property format " ++ bad)] := by
  have hne : props.isEmpty = false := by
    cases props with
    | nil => simp at h
    | cons a l => rfl
  refine ⟨if (resType ≠ "" || resName ≠ "" || !props.isEmpty)
        && !allF && !completeF && !deletedF && !inProgressF then []
      else buildStatusFilters allF completeF deletedF inProgressF, ?_⟩
  simp [runListTrace, runResourceSearchTrace, hne, h]

/-- Witness for `malformed_filter_rejected_after_listing` at a concrete
invocation. -/
theorem malformed_filter_rejected_after_listing_witness :
    ∃ sf, runListTrace false false false false "" "" "" "" ""
        ["Versioning.Status"] []
      = [.listStacksCall sf, .fatal ("invalid property format " ++ "Versioning.Status")] :=
  malformed_filter_rejected_after_listing false false false false "" "" "" "" ""
    ["Versioning.Status"] [] "Versioning.Status" (by decide)

/-- Terminal/non-terminal states of a drift detection
(`types.StackDriftDetectionStatus`). -/
inductive DetectionStatus where
  | detectionInProgress
  | detectionComplete
  | detectionFailed
deriving DecidableEq, Repr

/-- One response of `DescribeStackDriftDetectionStatus`, restricted to the
fields `runDrift` reads (the reason is already `getValue`-dereferenced). -/
structure DriftStatusResp where
  detectionStatus : DetectionStatus
  detectionStatusReason : String
deriving DecidableEq, Repr

/-- Per-resource drift statuses (`types.StackResourceDriftStatus`). -/
inductive DriftStatusKind where
  | inSync
  | modified
  | deleted
  | notChecked
deriving DecidableEq, Repr

/-- One property-level difference of a drifted resource. -/
structure PropertyDifference where
  propertyPath : String
  differenceType : String
  expectedValue : String
  actualValue : String
deriving DecidableEq, Repr

/-- One resource drift record (`types.StackResourceDrift`), restricted to
the fields `printDriftResults` reads. -/
structure ResourceDrift where
  logicalResourceId : String
  resourceType : String
  stackResourceDriftStatus : DriftStatusKind
  propertyDifferences : List PropertyDifference
deriving DecidableEq, Repr

/-- Modelled from the spec: the provider side of
`listResourceDrifts(name, statusFilter)` (external collaborator contract,
§6) — the paginated `DescribeStackResourceDrifts` call returns exactly the
drift records whose status is in the requested filter set.  `provider` is
the full drift state of the stack. -/
def listResourceDriftsFiltered (provider : List ResourceDrift)
    (filters : List DriftStatusKind) : List ResourceDrift :=
  provider.filter (fun d => filters.contains d.stackResourceDriftStatus)

/-- The fetch of `printDriftResults`: it requests only resources whose
drift status is `MODIFIED` or `DELETED`
(`StackResourceDriftStatusFilters: [Modified, Deleted]`). -/
def driftFetch (provider : List ResourceDrift) : List ResourceDrift :=
  listResourceDriftsFiltered provider [.modified, .deleted]

/-- One row of the drift summary table (logical id, type, drift status,
property-difference count). -/
structure DriftRow where
  logicalId : String
  resourceType : String
  driftStatus : DriftStatusKind
  diffCount : Nat
deriving DecidableEq, Repr

/-- The summary table of `printDriftResults`: one row per fetched drifted
resource, in fetch order. -/
def driftSummaryRows (provider : List ResourceDrift) : List DriftRow :=
  (driftFetch provider).map fun d =>
    ⟨d.logicalResourceId, d.resourceType, d.stackResourceDriftStatus,
     d.propertyDifferences.length⟩

/-- The per-property detail blocks of `printDriftResults`: the fetched
resources that have at least one property difference. -/
def driftDetailBlocks (provider : List ResourceDrift) : List ResourceDrift :=
  (driftFetch provider).filter (fun d => !d.propertyDifferences.isEmpty)

/-- The externally observable steps of `runDrift`: initiating detection,
one status query per poll iteration, the drifted-resource list query, the
rendering of the one result block, and a fatal exit. -/
inductive DriftEffect where
  | startDetection
  | describeDetectionStatus
  | describeResourceDrifts
  | renderResults
  | fatal (msg : String)
deriving DecidableEq, Repr

/-- Whether an effect is the status query. -/
def DriftEffect.isStatusQuery : DriftEffect → Bool
  | .describeDetectionStatus => true
  | _ => false

/-- Whether an effect is the drifted-resource list query. -/
def DriftEffect.isDriftListQuery : DriftEffect → Bool
  | .describeResourceDrifts => true
  | _ => false

/-- Whether an effect renders a drift result block. -/
def DriftEffect.isRender : DriftEffect → Bool
  | .renderResults => true
  | _ => false

/-- The `wait` poll loop of `runDrift`: each iteration sleeps, queries the
detection status (consuming the next provider response), and switches —
`DETECTION_COMPLETE` renders the results (one drifted-resource fetch, one
rendered block) and returns; `DETECTION_FAILED` exits fatally with the
provider-supplied reason; otherwise the loop continues.  An exhausted
response list models a detection still in progress (the loop would simply
keep polling). -/
def driftPollLoop : List DriftStatusResp → List DriftEffect
  | [] => []
  | r :: rest =>
    DriftEffect.describeDetectionStatus ::
      match r.detectionStatus with
      | .detectionComplete => [.describeResourceDrifts, .renderResults]
      | .detectionFailed =>
        [.fatal ("drift detection failed: " ++ r.detectionStatusReason)]
      | .detectionInProgress => driftPollLoop rest

/-- The effect trace of `runDrift`: initiate detection, then poll only when
`wait` is set. -/
def runDriftTrace (wait : Bool) (statusResponses : List DriftStatusResp) :
    List DriftEffect :=
  DriftEffect.startDetection :: (if wait then driftPollLoop statusResponses else [])

/-- C5: with `wait`, a detection reported in-progress twice and then
complete issues exactly three status queries and renders exactly one
result; a detection reported failed on the first poll issues zero
drifted-resource list queries and exits fatally with the provider-supplied
reason after its single status query. -/
theorem drift_poll_query_counts (r1 r2 r3 failReason : String) :
    (((runDriftTrace true
        [⟨.detectionInProgress, r1⟩, ⟨.detectionInProgress, r2⟩,
         ⟨.detectionComplete, r3⟩]).filter DriftEffect.isStatusQuery).length = 3
    ∧ ((runDriftTrace true
        [⟨.detectionInProgress, r1⟩, ⟨.detectionInProgress, r2⟩,
         ⟨.detectionComplete, r3⟩]).filter DriftEffect.isRender).length = 1)
    ∧ (((runDriftTrace true [⟨.detectionFailed, failReason⟩]).filter
          DriftEffect.isDriftListQuery).length = 0
    ∧ runDriftTrace true [⟨.detectionFailed, failReason⟩]
        = [.startDetection, .describeDetectionStatus,
           .fatal ("drift detection failed: " ++ failReason)]) :=
  ⟨⟨rfl, rfl⟩, rfl, rfl⟩

/-- C6: nothing `printDriftResults` renders — neither a summary-table row
nor a per-property detail block — can carry the `IN_SYNC` drift status,
because the fetch requests only `MODIFIED` and `DELETED` resources. -/
theorem drift_render_never_in_sync (provider : List ResourceDrift) :
    (∀ row ∈ driftSummaryRows provider, row.driftStatus ≠ DriftStatusKind.inSync) ∧
    (∀ d ∈ driftDetailBlocks provider,
      d.stackResourceDriftStatus ≠ DriftStatusKind.inSync) := by
  constructor
  · intro row hrow
    rcases List.mem_map.mp hrow with ⟨d, hd, rfl⟩
    have hmem := (List.mem_filter.mp hd).2
    cases hstat : d.stackResourceDriftStatus <;> simp_all [listResourceDriftsFiltered]
  · intro d hd
    have hd' := (List.mem_filter.mp hd).1
    have hmem := (List.mem_filter.mp hd').2
    cases hstat : d.stackResourceDriftStatus <;> simp_all [listResourceDriftsFiltered]

/-- The provider drift state used as the C6 witness: one `IN_SYNC` record
and one `MODIFIED` record with a single property difference. -/
def driftWitnessProvider : List ResourceDrift :=
  [⟨"InSyncRes", "AWS::S3::Bucket", .inSync, []⟩,
   ⟨"DriftedRes", "AWS::S3::Bucket", .modified, [⟨"/X", "NOT_EQUAL", "1", "2"⟩]⟩]

/-- Witness for `drift_render_never_in_sync` at the concrete provider
state: the rendered row for `DriftedRes` does not carry `IN_SYNC` (and the
`IN_SYNC` record is not rendered at all). -/
theorem drift_render_never_in_sync_witness :
    (DriftRow.mk "DriftedRes" "AWS::S3::Bucket" .modified 1)
        ∈ driftSummaryRows driftWitnessProvider ∧
    (DriftRow.mk "DriftedRes" "AWS::S3::Bucket" .modified 1).driftStatus
        ≠ DriftStatusKind.inSync :=
  ⟨by decide,
   (drift_render_never_in_sync driftWitnessProvider).1 _ (by decide)⟩
